import Mathlib

/-!
# Verification of the pull-request report generator

A shallow embedding of `src/main.py`: the paginated, time-bounded fetch loop
`get_recent_pulls_of_repo`, the digest formatter `get_pulls_summary_as_string`,
and the `__main__` block (CLI argument selection, empty-result short circuit,
report-file writing).

Modelling conventions:
* ISO-8601 creation/update timestamps are modelled by their timeline values
  (`Int`, seconds); the source parses the strings with `fromisoformat` and
  compares the resulting instants, which is order-isomorphic to `Int` order.
* The HTTP interaction is modelled by an oracle `Nat → PageResponse` giving
  the response to the n-th request issued by the loop.  A `PageResponse` is
  either a transport-level failure (`requests.exceptions.RequestException`),
  or a response carrying a status code and, for parsing purposes, either a
  decoded JSON page or `none` for a body that fails to decode
  (`json.JSONDecodeError`).
* The unbounded `while True` loop is given explicit fuel; `none` means the
  fuel ran out before the loop reached a return.  Every theorem about the
  loop is stated for the runs that do return.
* Alongside the Python return value the model records the page number of
  every request issued (the `trace`), so that theorems can speak about which
  pages were requested and how often.
-/

/-- One decoded item of a pull-request list page, as read by the fetcher in
lines 76-90 of `src/main.py`.  The fields `labels` and `body` are `Option`
because the source reads them with a dictionary lookup and a default. -/
structure PullEntry where
  number : Nat
  title : String
  state : String
  created_at : Int
  updated_at : Int
  user : String
  labels : Option (List String)
  body : Option String
deriving DecidableEq, Repr

/-- The record built for each in-window pull request
(`src/main.py` lines 81-90). -/
structure PullRequestRecord where
  number : Nat
  title : String
  state : String
  created_at : Int
  updated_at : Int
  user : String
  labels : List String
  body : String
deriving DecidableEq, Repr

/-- Build the dictionary appended to `recent_pulls` (`src/main.py` 81-90):
`labels` defaults to the empty list and `body` to the empty string when the
key is absent. -/
def mkRecord (pull : PullEntry) : PullRequestRecord :=
  { number := pull.number
    title := pull.title
    state := pull.state
    created_at := pull.created_at
    updated_at := pull.updated_at
    user := pull.user
    labels := pull.labels.getD []
    body := pull.body.getD "" }

/-- The page scan of `src/main.py` lines 74-93: walk the page in order,
keep each entry created at or after `since`, and `break` at the first older
entry without looking at the rest of the page. -/
def recentPulls (since : Int) : List PullEntry → List PullRequestRecord
  | [] => []
  | pull :: rest =>
    if since ≤ pull.created_at then mkRecord pull :: recentPulls since rest
    else []

/-- The outcome of one HTTP request in the fetch loop. -/
inductive PageResponse where
  | transportError : PageResponse
  | response (status : Nat) (body : Option (List PullEntry)) : PageResponse
deriving DecidableEq, Repr

/-- The loop state of `get_recent_pulls_of_repo`: the page parameter, the
`retries` counter, the accumulator `all_pulls`, plus the model-level request
counter and trace of requested page numbers. -/
structure FetchState where
  page : Nat
  retries : Nat
  all_pulls : List PullRequestRecord
  reqCount : Nat
  trace : List Nat
deriving DecidableEq, Repr

/-- The `while True` loop of `src/main.py` lines 45-112, with fuel.
Returns the Python return value paired with the trace of requested pages;
`none` means the fuel ran out.

* transport error: the `except requests.exceptions.RequestException`
  handler returns `[]` (line 105-107);
* non-200 status: decrement `retries`; retry the same page while the
  decremented counter is positive, otherwise `break` and return the
  accumulator (lines 52-62);
* 200 with undecodable body: the `except json.JSONDecodeError` handler
  returns `[]` (lines 108-110);
* empty page: `break`, returning the accumulator unchanged (lines 68-70);
* otherwise scan the page with `recentPulls`; if fewer entries were kept
  than the page contained, `break` with the extended accumulator (99-100),
  else move to the next page with `retries` reset to 5 (lines 63, 102). -/
def runFetch (resp : Nat → PageResponse) (since : Int) :
    Nat → FetchState → Option (List PullRequestRecord × List Nat)
  | 0, _ => none
  | fuel + 1, s =>
    let tr := s.trace ++ [s.page]
    match resp s.reqCount with
    | .transportError => some ([], tr)
    | .response status body =>
      if status ≠ 200 then
        if s.retries - 1 > 0 then
          runFetch resp since fuel
            { s with retries := s.retries - 1, reqCount := s.reqCount + 1, trace := tr }
        else
          some (s.all_pulls, tr)
      else
        match body with
        | none => some ([], tr)
        | some pulls =>
          if pulls = [] then some (s.all_pulls, tr)
          else
            let recent := recentPulls since pulls
            let newAll := s.all_pulls ++ recent
            if recent.length < pulls.length then some (newAll, tr)
            else
              runFetch resp since fuel
                { s with retries := 5, all_pulls := newAll, page := s.page + 1,
                         reqCount := s.reqCount + 1, trace := tr }

/-- One week, the time delta of line 19, in seconds. -/
def sevenDays : Int := 7 * 24 * 60 * 60

/-- The window start of line 19 of the source: the invocation instant
minus one week, computed once per call. -/
def sinceTime (now : Int) : Int := now - sevenDays

/-- The initial loop state: page 1, 5 retries, empty accumulator
(`src/main.py` lines 31, 43, 45). -/
def initFetchState : FetchState :=
  { page := 1, retries := 5, all_pulls := [], reqCount := 0, trace := [] }

/-- The fetcher `get_recent_pulls_of_repo` as a function of the invocation
instant `now`, the response oracle, and the loop fuel. -/
def get_recent_pulls_of_repo (now : Int) (resp : Nat → PageResponse) (fuel : Nat) :
    Option (List PullRequestRecord × List Nat) :=
  runFetch resp (sinceTime now) fuel initFetchState

/-- Pairwise creation-time-descending order of a page, as guaranteed by the
request parameters `sort=created, direction=desc` (`src/main.py` 28-29). -/
def SortedDesc (pulls : List PullEntry) : Prop :=
  List.Pairwise (fun a b => b.created_at ≤ a.created_at) pulls

instance : DecidablePred SortedDesc := fun pulls =>
  inferInstanceAs (Decidable (List.Pairwise _ pulls))

/-- The boolean in-window test used by the page scan. -/
def inWindow (since : Int) (pull : PullEntry) : Bool := since ≤ pull.created_at

/-- A concrete page entry used by witnesses. -/
def wEntry (n : Nat) (c : Int) : PullEntry :=
  { number := n, title := "t", state := "open", created_at := c,
    updated_at := c, user := "u", labels := none, body := none }

/-- Fuelled helper for `natDigits`; the fuel dominates the number. -/
def natDigitsAux : Nat → Nat → List Char
  | 0, _ => []
  | fuel + 1, n =>
    if n < 10 then [Nat.digitChar n]
    else natDigitsAux fuel (n / 10) ++ [Nat.digitChar (n % 10)]

/-- Decimal digits of a natural number, most significant first: the model
of Python's `str` on a non-negative integer. -/
def natDigits (n : Nat) : List Char := natDigitsAux (n + 1) n

/-- Decimal rendering of a natural number, as Python prints it. -/
def natRepr (n : Nat) : String := String.mk (natDigits n)

/-- Decimal rendering of an integer, as Python prints it. -/
def intRepr (i : Int) : String :=
  if i < 0 then String.mk ('-' :: natDigits i.natAbs) else natRepr i.natAbs

/-- Joining of label names with a comma and a space (line 125). -/
def joinComma : List String → String
  | [] => ""
  | [l] => l
  | l :: l2 :: ls => l ++ ", " ++ joinComma (l2 :: ls)

/-- Joining of the summary lines with newlines (line 129). -/
def joinLines : List String → String
  | [] => ""
  | [l] => l
  | l :: l2 :: ls => l ++ "\n" ++ joinLines (l2 :: ls)

/-- First element of `summary_lines` (`src/main.py` line 119). -/
def headerLine (pulls : List PullRequestRecord) : String :=
  "\nThere are " ++ natRepr pulls.length ++ " pull requests recently:"

/-- The numbered first line of an entry: index, dot, the marker `PR #`,
the PR number, a colon and the title (`src/main.py` line 122). -/
def idxLine (i : Nat) (p : PullRequestRecord) : String :=
  natRepr i ++ ". PR #" ++ natRepr p.number ++ ": " ++ p.title

/-- The author line of an entry (`src/main.py` line 123). -/
def authorLine (p : PullRequestRecord) : String := "   Author: " ++ p.user

/-- The creation-time line of an entry (`src/main.py` line 124). -/
def createdLine (p : PullRequestRecord) : String :=
  "   Created at: " ++ intRepr p.created_at

/-- The labels line of an entry: the comma-joined label names, or the word
None when there are no labels (`src/main.py` line 125). -/
def labelsLine (p : PullRequestRecord) : String :=
  "   Labels: " ++ (if p.labels = [] then "None" else joinComma p.labels)

/-- The description line of an entry: the body text followed by three dots
(`src/main.py` line 126). -/
def descLine (p : PullRequestRecord) : String :=
  "   Description: " ++ p.body ++ "..."

/-- The six lines appended for the `i`-th (1-based) record
(`src/main.py` lines 121-127). -/
def entryLines (i : Nat) (p : PullRequestRecord) : List String :=
  [idxLine i p, authorLine p, createdLine p, labelsLine p, descLine p, "\n\n"]

/-- The lines of the `for i, pull in enumerate(pulls, 1)` loop. -/
def bodyLines : Nat → List PullRequestRecord → List String
  | _, [] => []
  | i, p :: ps => entryLines i p ++ bodyLines (i + 1) ps

/-- The full `summary_lines` list of `get_pulls_summary_as_string`. -/
def summary_lines (pulls : List PullRequestRecord) : List String :=
  headerLine pulls :: bodyLines 1 pulls

/-- The digest formatter `get_pulls_summary_as_string` of lines 115-129:
the summary lines joined with newlines. -/
def get_pulls_summary_as_string (pulls : List PullRequestRecord) : String :=
  joinLines (summary_lines pulls)

/-- The owner/repo selection of `__main__` (`src/main.py` lines 162-167):
`sys.argv` (program name included) yields `(sys.argv[1], sys.argv[2])` when
it has at least three elements, else the defaults. -/
def chooseRepo (argv : List String) : String × String :=
  if 3 ≤ argv.length then (argv.getD 1 "", argv.getD 2 "") else ("pytorch", "pytorch")

/-- Observable effects of one run of the `__main__` block: status text
printed, the process exit code, and the file store after the run (a map
from path to contents). -/
structure MainResult where
  printed : List String
  exitCode : Nat
  files : String → Option String

/-- The report path `reports/<owner>_<repo>/report-<date>.md`
(`src/main.py` lines 185-189). -/
def reportPath (owner repo dateStr : String) : String :=
  "reports/" ++ owner ++ "_" ++ repo ++ "/report-" ++ dateStr ++ ".md"

/-- The header line written before the analysis (`src/main.py` line 191). -/
def reportHeader (owner repo startDate dateStr : String) : String :=
  "# AI Analysis of Pull Requests for " ++ owner ++ "/" ++ repo ++
    " during " ++ startDate ++ "-" ++ dateStr ++ "\n\n"

/-- The `__main__` block (`src/main.py` lines 160-194) as a function of the
command line, the fetcher's result, the text-generation service (a function
of prompt input, owner and repo), the two formatted dates, and the file
store before the run.  `open(path, "w")` overwrites: the new store maps the
report path to the new contents and every other path to its old value. -/
def mainProgram (argv : List String) (recent_pulls : List PullRequestRecord)
    (ai : String → String → String → String) (dateStr startDate : String)
    (fs0 : String → Option String) : MainResult :=
  let owner := (chooseRepo argv).1
  let repo := (chooseRepo argv).2
  if recent_pulls = [] then
    { printed := ["No recent pull requests found."], exitCode := 0, files := fs0 }
  else
    let summary_string := get_pulls_summary_as_string recent_pulls
    let ai_analysis := ai summary_string owner repo
    let path := reportPath owner repo dateStr
    let content := reportHeader owner repo startDate dateStr ++ ai_analysis ++ "\n"
    { printed := ["Number of recent pulls: " ++ natRepr recent_pulls.length,
                  "Sending PR summary to AI model for analysis...",
                  "AI Analysis of Recent Pull Requests:",
                  ai_analysis,
                  "Report saved to " ++ path],
      exitCode := 0,
      files := fun p => if p = path then some content else fs0 p }

/-- Numeric value of a list of decimal digit characters. -/
def digitsVal (l : List Char) : Nat :=
  l.foldl (fun a c => a * 10 + (c.toNat - 48)) 0

/-- Split a character list at every newline (the inverse side of joining
lines with `"\n"`). -/
def splitOnNl : List Char → List (List Char)
  | [] => [[]]
  | c :: cs =>
    if c = '\n' then [] :: splitOnNl cs
    else
      match splitOnNl cs with
      | [] => [[c]]
      | l :: ls => (c :: l) :: ls

/-- Take the leading run of decimal digits. -/
def takeDigits : List Char → List Char × List Char
  | [] => ([], [])
  | c :: cs =>
    if c.isDigit then
      let p := takeDigits cs
      (c :: p.1, p.2)
    else ([], c :: cs)

/-- Remove an expected leading character sequence, or fail. -/
def stripHead : List Char → List Char → Option (List Char)
  | [], cs => some cs
  | _ :: _, [] => none
  | p :: ps, c :: cs => if c = p then stripHead ps cs else none

/-- The constant chunk of an index line between the two numerals. -/
def idxMark : List Char := ". PR #".data

/-- The constant chunk of an index line between number and title. -/
def colonMark : List Char := ": ".data

/-- Parse a digest index line `<i>. PR #<number>: <title>`. -/
def parseIdx (cs : List Char) : Option (Nat × Nat × String) :=
  let p1 := takeDigits cs
  if p1.1 = [] then none
  else
    (stripHead idxMark p1.2).bind fun r1 =>
      let p2 := takeDigits r1
      if p2.1 = [] then none
      else
        (stripHead colonMark p2.2).map fun title =>
          (digitsVal p1.1, digitsVal p2.1, String.mk title)

/-- Parse a digest author line `   Author: <user>`. -/
def parseAuthor (cs : List Char) : Option String :=
  (stripHead ("   Author: ".data) cs).map String.mk

/-- Parse a digest description line `   Description: <body>...`, removing
the documented three-dot suffix. -/
def parseDesc (cs : List Char) : Option String :=
  (stripHead ("   Description: ".data) cs).map fun rest =>
    String.mk (rest.take (rest.length - 3))

/-- Scan split digest lines for entries: a line parsing as an index line,
directly followed by an author line, with the description line four lines
on; yields index, PR number, title, author and body of every entry. -/
def scanLines : List (List Char) → List (Nat × Nat × String × String × String)
  | l1 :: l2 :: l3 :: l4 :: l5 :: rest =>
    match parseIdx l1, parseAuthor l2, parseDesc l5 with
    | some (i, n, t), some u, some b => (i, n, t, u, b) :: scanLines rest
    | _, _, _ => scanLines (l2 :: l3 :: l4 :: l5 :: rest)
  | _ => []

/-- Re-scan a rendered digest. -/
def scanDigest (s : String) : List (Nat × Nat × String × String × String) :=
  scanLines (splitOnNl s.data)

/-- What re-scanning should recover: consecutive indices from `i` with each
record's number, title, author and body, in order. -/
def expectedScan : Nat → List PullRequestRecord → List (Nat × Nat × String × String × String)
  | _, [] => []
  | i, p :: ps => (i, p.number, p.title, p.user, p.body) :: expectedScan (i + 1) ps

/-- A string with no newline character. -/
def cleanStr (s : String) : Prop := '\n' ∉ s.data

instance (s : String) : Decidable (cleanStr s) :=
  inferInstanceAs (Decidable ('\n' ∉ s.data))

/-- A record none of whose printed text fields contains a newline. -/
def cleanRecord (p : PullRequestRecord) : Prop :=
  cleanStr p.title ∧ cleanStr p.user ∧ cleanStr p.body ∧ ∀ l ∈ p.labels, cleanStr l

instance (p : PullRequestRecord) : Decidable (cleanRecord p) :=
  inferInstanceAs (Decidable (_ ∧ _ ∧ _ ∧ _))

/-- First record of the colliding pair `A`: its body embeds a forged digest
block for a "PR #7". -/
def cexA1 : PullRequestRecord :=
  { number := 1, title := "T1", state := "open", created_at := 10, updated_at := 10,
    user := "U1", labels := [],
    body := "B...\n\n\n\n2. PR #7: T2\n   Author: U2\n   Created at: 5\n   Labels: None\n   Description: C" }

/-- Second record of pair `A`: a genuine PR #9 by U9. -/
def cexA2 : PullRequestRecord :=
  { number := 9, title := "T9", state := "open", created_at := 9, updated_at := 9,
    user := "U9", labels := [], body := "X" }

/-- First record of the colliding pair `B`: same as `cexA1` with a plain
body. -/
def cexB1 : PullRequestRecord :=
  { number := 1, title := "T1", state := "open", created_at := 10, updated_at := 10,
    user := "U1", labels := [], body := "B" }

/-- Second record of pair `B`: a genuine PR #7 by U2 whose body embeds a
forged digest block for a "PR #9". -/
def cexB2 : PullRequestRecord :=
  { number := 7, title := "T2", state := "open", created_at := 5, updated_at := 5,
    user := "U2", labels := [],
    body := "C...\n\n\n\n2. PR #9: T9\n   Author: U9\n   Created at: 9\n   Labels: None\n   Description: X" }

theorem recentPulls_eq_takeWhile (since : Int) (pulls : List PullEntry) :
    recentPulls since pulls = (pulls.takeWhile (inWindow since)).map mkRecord := by
  induction pulls with
  | nil => simp [recentPulls]
  | cons pull rest ih =>
    by_cases h : since ≤ pull.created_at
    · simp [recentPulls, h, List.takeWhile_cons, inWindow, ih]
    · simp [recentPulls, h, List.takeWhile_cons, inWindow]

theorem recentPulls_all_ge (since : Int) (pulls : List PullEntry) :
    ∀ r ∈ recentPulls since pulls, since ≤ r.created_at := by
  induction pulls with
  | nil => simp [recentPulls]
  | cons pull rest ih =>
    by_cases h : since ≤ pull.created_at
    · simp only [recentPulls, if_pos h, List.mem_cons]
      rintro r (rfl | hr)
      · exact h
      · exact ih r hr
    · simp [recentPulls, h]

theorem recentPulls_length_of_all_in (since : Int) (pulls : List PullEntry)
    (h : ∀ p ∈ pulls, since ≤ p.created_at) :
    (recentPulls since pulls).length = pulls.length := by
  induction pulls with
  | nil => simp [recentPulls]
  | cons pull rest ih =>
    have hp : since ≤ pull.created_at := h pull (List.mem_cons_self ..)
    simp only [recentPulls, if_pos hp, List.length_cons]
    rw [ih fun p hp' => h p (List.mem_cons_of_mem _ hp')]

theorem recentPulls_indep_of_rest (since : Int) (pre : List PullEntry)
    (x : PullEntry) (hx : x.created_at < since) (rest rest' : List PullEntry) :
    recentPulls since (pre ++ x :: rest) = recentPulls since (pre ++ x :: rest') := by
  induction pre with
  | nil => simp [recentPulls, not_le.mpr hx]
  | cons p pre ih =>
    by_cases h : since ≤ p.created_at
    · simp [recentPulls, h, ih]
    · simp [recentPulls, h]

theorem takeWhile_eq_filter_of_sorted (since : Int) (pulls : List PullEntry)
    (h : SortedDesc pulls) :
    pulls.takeWhile (inWindow since) = pulls.filter (inWindow since) := by
  induction pulls with
  | nil => rfl
  | cons p rest ih =>
    unfold SortedDesc at h
    rw [List.pairwise_cons] at h
    obtain ⟨hrel, hrest⟩ := h
    by_cases hp : since ≤ p.created_at
    · have hw : inWindow since p = true := by simp [inWindow, hp]
      simp only [List.takeWhile_cons, List.filter_cons, hw, if_pos rfl, ite_true]
      rw [ih hrest]
    · have hw : inWindow since p = false := by simp [inWindow, hp]
      simp only [List.takeWhile_cons, List.filter_cons, hw]
      simp only [Bool.false_eq_true, if_false, cond_false]
      symm
      rw [List.filter_eq_nil_iff]
      intro b hb
      have hble : b.created_at ≤ p.created_at := hrel b hb
      simp only [inWindow, decide_eq_true_eq]
      omega

theorem runFetch_transport_step (resp : Nat → PageResponse) (since : Int)
    (f : Nat) (s : FetchState) (h : resp s.reqCount = .transportError) :
    runFetch resp since (f + 1) s = some ([], s.trace ++ [s.page]) := by
  unfold runFetch
  rw [h]

theorem runFetch_badJson_step (resp : Nat → PageResponse) (since : Int)
    (f : Nat) (s : FetchState) (h : resp s.reqCount = .response 200 none) :
    runFetch resp since (f + 1) s = some ([], s.trace ++ [s.page]) := by
  unfold runFetch
  rw [h]
  simp

theorem runFetch_ok_step (resp : Nat → PageResponse) (since : Int)
    (f : Nat) (s : FetchState) (pulls : List PullEntry)
    (h : resp s.reqCount = .response 200 (some pulls)) :
    runFetch resp since (f + 1) s =
      (if pulls = [] then some (s.all_pulls, s.trace ++ [s.page])
       else if (recentPulls since pulls).length < pulls.length then
         some (s.all_pulls ++ recentPulls since pulls, s.trace ++ [s.page])
       else
         runFetch resp since f
           { s with retries := 5, all_pulls := s.all_pulls ++ recentPulls since pulls,
                    page := s.page + 1, reqCount := s.reqCount + 1,
                    trace := s.trace ++ [s.page] }) := by
  simp only [runFetch]
  rw [h]
  simp

theorem runFetch_fail_step (resp : Nat → PageResponse) (since : Int)
    (f : Nat) (s : FetchState) (status : Nat) (body : Option (List PullEntry))
    (h : resp s.reqCount = .response status body) (hne : status ≠ 200) :
    runFetch resp since (f + 1) s =
      (if s.retries - 1 > 0 then
        runFetch resp since f
          { s with retries := s.retries - 1, reqCount := s.reqCount + 1,
                   trace := s.trace ++ [s.page] }
       else some (s.all_pulls, s.trace ++ [s.page])) := by
  simp only [runFetch]
  rw [h]
  simp [hne]

/-- Exhausting the retry counter: starting with `retries = r ≥ 1`, a run of
`r` consecutive non-200 responses makes the loop request the same page `r`
times and then `break`, returning the accumulator. -/
theorem runFetch_fail_exhaust (resp : Nat → PageResponse) (since : Int) :
    ∀ r f s, s.retries = r → 1 ≤ r →
    (∀ i < r, ∃ st b, resp (s.reqCount + i) = PageResponse.response st b ∧ st ≠ 200) →
    runFetch resp since (f + r) s = some (s.all_pulls, s.trace ++ List.replicate r s.page) := by
  intro r
  induction r with
  | zero => intro f s _ h1 _; omega
  | succ r ih =>
    intro f s hret h1 hfail
    obtain ⟨st, b, heq, hne⟩ := hfail 0 (Nat.succ_pos r)
    rw [Nat.add_zero] at heq
    have hfs : f + (r + 1) = (f + r) + 1 := by omega
    rw [hfs, runFetch_fail_step resp since (f + r) s st b heq hne]
    rcases Nat.eq_zero_or_pos r with hr0 | hrpos
    · subst hr0
      simp [hret, List.replicate]
    · have hcond : s.retries - 1 > 0 := by omega
      rw [if_pos hcond]
      have := ih f
        { s with retries := s.retries - 1, reqCount := s.reqCount + 1,
                 trace := s.trace ++ [s.page] }
      simp only at this
      rw [this (by omega) hrpos ?_]
      · simp [List.replicate_succ, List.append_assoc]
      · intro i hi
        obtain ⟨st', b', heq', hne'⟩ := hfail (i + 1) (by omega)
        exact ⟨st', b', by rw [show s.reqCount + 1 + i = s.reqCount + (i + 1) by omega]; exact heq', hne'⟩

/-- Window invariant of the loop: if every accumulated record is in-window,
every record of the final result is. -/
theorem runFetch_result_ge (resp : Nat → PageResponse) (since : Int) :
    ∀ fuel s, (∀ r ∈ s.all_pulls, since ≤ r.created_at) →
    ∀ res tr, runFetch resp since fuel s = some (res, tr) →
    ∀ r ∈ res, since ≤ r.created_at := by
  intro fuel
  induction fuel with
  | zero =>
    intro s _ res tr h
    simp [runFetch] at h
  | succ fuel ih =>
    intro s hs res tr h
    cases hresp : resp s.reqCount with
    | transportError =>
      rw [runFetch_transport_step resp since fuel s hresp] at h
      simp only [Option.some.injEq, Prod.mk.injEq] at h
      rw [← h.1]
      simp
    | response status body =>
      by_cases hst : status = 200
      · subst hst
        cases body with
        | none =>
          rw [runFetch_badJson_step resp since fuel s hresp] at h
          simp only [Option.some.injEq, Prod.mk.injEq] at h
          rw [← h.1]
          simp
        | some pulls =>
          rw [runFetch_ok_step resp since fuel s pulls hresp] at h
          by_cases hemp : pulls = []
          · rw [if_pos hemp] at h
            simp only [Option.some.injEq, Prod.mk.injEq] at h
            rw [← h.1]
            exact hs
          · rw [if_neg hemp] at h
            by_cases hlt : (recentPulls since pulls).length < pulls.length
            · rw [if_pos hlt] at h
              simp only [Option.some.injEq, Prod.mk.injEq] at h
              rw [← h.1]
              intro r hr
              rcases List.mem_append.mp hr with hr | hr
              · exact hs r hr
              · exact recentPulls_all_ge since pulls r hr
            · rw [if_neg hlt] at h
              refine ih _ ?_ res tr h
              intro r hr
              rcases List.mem_append.mp hr with hr | hr
              · exact hs r hr
              · exact recentPulls_all_ge since pulls r hr
      · rw [runFetch_fail_step resp since fuel s status body hresp hst] at h
        by_cases hcond : s.retries - 1 > 0
        · rw [if_pos hcond] at h
          refine ih _ ?_ res tr h
          simpa using hs
        · rw [if_neg hcond] at h
          simp only [Option.some.injEq, Prod.mk.injEq] at h
          rw [← h.1]
          exact hs

/-- C1: on a page sorted by creation time descending, the page scan keeps
exactly the maximal prefix of entries created at or after `since` (which,
by sortedness, is exactly the set of in-window entries of the page), and it
stops at the first older entry: the result does not depend on anything
after that entry. -/
theorem claim_C1_page_prefix (since : Int) (pulls : List PullEntry)
    (hsorted : SortedDesc pulls) :
    recentPulls since pulls = (pulls.takeWhile (inWindow since)).map mkRecord ∧
    recentPulls since pulls = (pulls.filter (inWindow since)).map mkRecord ∧
    (∀ pre x rest rest', pulls = pre ++ x :: rest → x.created_at < since →
      recentPulls since (pre ++ x :: rest') = recentPulls since pulls) := by
  refine ⟨recentPulls_eq_takeWhile since pulls, ?_, ?_⟩
  · rw [recentPulls_eq_takeWhile, takeWhile_eq_filter_of_sorted since pulls hsorted]
  · intro pre x rest rest' hp hx
    rw [hp]
    exact recentPulls_indep_of_rest since pre x hx rest' rest

/-- Witness for C1 at a concrete sorted page crossing the window boundary. -/
theorem claim_C1_page_prefix_witness :
    recentPulls 5 [wEntry 1 7, wEntry 2 3] =
      (([wEntry 1 7, wEntry 2 3].takeWhile (inWindow 5)).map mkRecord) ∧
    recentPulls 5 [wEntry 1 7, wEntry 2 3] =
      (([wEntry 1 7, wEntry 2 3].filter (inWindow 5)).map mkRecord) ∧
    (∀ pre x rest rest', [wEntry 1 7, wEntry 2 3] = pre ++ x :: rest →
      x.created_at < 5 →
      recentPulls 5 (pre ++ x :: rest') = recentPulls 5 [wEntry 1 7, wEntry 2 3]) :=
  claim_C1_page_prefix 5 [wEntry 1 7, wEntry 2 3] (by decide)

/-- C2: on a page that arrives with status 200 and decodes, the loop stops
iff the page is empty (returning the accumulator unchanged) or strictly
fewer entries were kept than the page contained; when every entry of a
non-empty page is in-window the loop continues to the next page. -/
theorem claim_C2_pagination_stop (resp : Nat → PageResponse) (since : Int)
    (f : Nat) (s : FetchState) (pulls : List PullEntry)
    (h : resp s.reqCount = PageResponse.response 200 (some pulls)) :
    (pulls = [] → runFetch resp since (f + 1) s = some (s.all_pulls, s.trace ++ [s.page])) ∧
    (pulls ≠ [] → (recentPulls since pulls).length < pulls.length →
      runFetch resp since (f + 1) s =
        some (s.all_pulls ++ recentPulls since pulls, s.trace ++ [s.page])) ∧
    (pulls ≠ [] → (recentPulls since pulls).length = pulls.length →
      runFetch resp since (f + 1) s =
        runFetch resp since f
          { s with retries := 5, all_pulls := s.all_pulls ++ recentPulls since pulls,
                   page := s.page + 1, reqCount := s.reqCount + 1,
                   trace := s.trace ++ [s.page] }) ∧
    (pulls ≠ [] → (∀ p ∈ pulls, since ≤ p.created_at) →
      runFetch resp since (f + 1) s =
        runFetch resp since f
          { s with retries := 5, all_pulls := s.all_pulls ++ recentPulls since pulls,
                   page := s.page + 1, reqCount := s.reqCount + 1,
                   trace := s.trace ++ [s.page] }) := by
  rw [runFetch_ok_step resp since f s pulls h]
  refine ⟨?_, ?_, ?_, ?_⟩
  · intro he
    rw [if_pos he]
  · intro hne hlt
    rw [if_neg hne, if_pos hlt]
  · intro hne heq
    rw [if_neg hne, if_neg (by omega)]
  · intro hne hall
    rw [if_neg hne, if_neg (by rw [recentPulls_length_of_all_in since pulls hall]; omega)]

/-- Witness for C2 at a concrete oracle answering 200 with an empty page. -/
theorem claim_C2_pagination_stop_witness :
    (([] : List PullEntry) = [] →
      runFetch (fun _ => PageResponse.response 200 (some [])) 5 (0 + 1) initFetchState =
        some (initFetchState.all_pulls, initFetchState.trace ++ [initFetchState.page])) ∧
    (([] : List PullEntry) ≠ [] → (recentPulls 5 ([] : List PullEntry)).length < ([] : List PullEntry).length →
      runFetch (fun _ => PageResponse.response 200 (some [])) 5 (0 + 1) initFetchState =
        some (initFetchState.all_pulls ++ recentPulls 5 [], initFetchState.trace ++ [initFetchState.page])) ∧
    (([] : List PullEntry) ≠ [] → (recentPulls 5 ([] : List PullEntry)).length = ([] : List PullEntry).length →
      runFetch (fun _ => PageResponse.response 200 (some [])) 5 (0 + 1) initFetchState =
        runFetch (fun _ => PageResponse.response 200 (some [])) 5 0
          { initFetchState with retries := 5,
                                all_pulls := initFetchState.all_pulls ++ recentPulls 5 [],
                                page := initFetchState.page + 1,
                                reqCount := initFetchState.reqCount + 1,
                                trace := initFetchState.trace ++ [initFetchState.page] }) ∧
    (([] : List PullEntry) ≠ [] → (∀ p ∈ ([] : List PullEntry), (5 : Int) ≤ p.created_at) →
      runFetch (fun _ => PageResponse.response 200 (some [])) 5 (0 + 1) initFetchState =
        runFetch (fun _ => PageResponse.response 200 (some [])) 5 0
          { initFetchState with retries := 5,
                                all_pulls := initFetchState.all_pulls ++ recentPulls 5 [],
                                page := initFetchState.page + 1,
                                reqCount := initFetchState.reqCount + 1,
                                trace := initFetchState.trace ++ [initFetchState.page] }) :=
  claim_C2_pagination_stop (fun _ => PageResponse.response 200 (some [])) 5 0 initFetchState [] rfl

/-- C3: every record returned by `get_recent_pulls_of_repo` was created at
or after `now - 7 days`, where the window start is computed once from the
invocation instant and is the same for all pages; the result is empty or
consists only of in-window records. -/
theorem claim_C3_window_invariant (now : Int) (resp : Nat → PageResponse) (fuel : Nat)
    (res : List PullRequestRecord) (tr : List Nat)
    (h : get_recent_pulls_of_repo now resp fuel = some (res, tr)) :
    ∀ r ∈ res, now - sevenDays ≤ r.created_at := by
  have := runFetch_result_ge resp (sinceTime now) fuel initFetchState
    (by simp [initFetchState]) res tr h
  simpa [sinceTime] using this

/-- Witness for C3 at a one-page run crossing the window boundary. -/
theorem claim_C3_window_invariant_witness :
    (0 : Int) - sevenDays ≤ (mkRecord (wEntry 1 0)).created_at :=
  claim_C3_window_invariant 0
    (fun _ => PageResponse.response 200 (some [wEntry 1 0, wEntry 2 (-700000)]))
    1 [mkRecord (wEntry 1 0)] [1] (by decide) (mkRecord (wEntry 1 0)) (by decide)

/-- C4: with the retry counter at its initial value 5, five consecutive
non-200 responses make the loop request the same page number five times and
then stop, returning (not raising) the records accumulated from the prior
successful pages. -/
theorem claim_C4_retry_exhaustion (resp : Nat → PageResponse) (since : Int)
    (f : Nat) (s : FetchState) (hret : s.retries = 5)
    (hfail : ∀ i < 5, ∃ st b, resp (s.reqCount + i) = PageResponse.response st b ∧ st ≠ 200) :
    runFetch resp since (f + 5) s =
      some (s.all_pulls, s.trace ++ List.replicate 5 s.page) :=
  runFetch_fail_exhaust resp since 5 f s hret (by omega) hfail

/-- Witness for C4: a permanently failing oracle after one successful page. -/
theorem claim_C4_retry_exhaustion_witness :
    runFetch (fun _ => PageResponse.response 500 none) 0 (0 + 5)
      { page := 2, retries := 5, all_pulls := [mkRecord (wEntry 1 0)],
        reqCount := 1, trace := [1] } =
      some ([mkRecord (wEntry 1 0)], [1, 2, 2, 2, 2, 2]) :=
  claim_C4_retry_exhaustion (fun _ => PageResponse.response 500 none) 0 0
    { page := 2, retries := 5, all_pulls := [mkRecord (wEntry 1 0)],
      reqCount := 1, trace := [1] }
    rfl (fun _ _ => ⟨500, none, rfl, by omega⟩)

/-- C5: a transport-level error or a 200 response whose body fails to
decode makes the fetch return the empty sequence at once — one request, no
retry, previously accumulated records discarded. -/
theorem claim_C5_fatal_errors (resp : Nat → PageResponse) (since : Int)
    (f : Nat) (s : FetchState)
    (h : resp s.reqCount = PageResponse.transportError ∨
         resp s.reqCount = PageResponse.response 200 none) :
    runFetch resp since (f + 1) s = some ([], s.trace ++ [s.page]) := by
  rcases h with h | h
  · exact runFetch_transport_step resp since f s h
  · exact runFetch_badJson_step resp since f s h

/-- Witness for C5: a transport error with a non-empty accumulator. -/
theorem claim_C5_fatal_errors_witness :
    runFetch (fun _ => PageResponse.transportError) 0 (0 + 1)
      { page := 2, retries := 5, all_pulls := [mkRecord (wEntry 1 0)],
        reqCount := 1, trace := [1] } =
      some ([], [1, 2]) :=
  claim_C5_fatal_errors (fun _ => PageResponse.transportError) 0 0
    { page := 2, retries := 5, all_pulls := [mkRecord (wEntry 1 0)],
      reqCount := 1, trace := [1] }
    (Or.inl rfl)

/-- C9: every record of a page scan comes from an entry of the page via
`mkRecord`, and when that entry has no body the record's body is `""`. -/
theorem claim_C9_absent_body (since : Int) (pulls : List PullEntry) :
    ∀ r ∈ recentPulls since pulls, ∃ e, e ∈ pulls ∧ r = mkRecord e ∧
      (e.body = none → r.body = "") := by
  intro r hr
  rw [recentPulls_eq_takeWhile] at hr
  obtain ⟨e, he, rfl⟩ := List.mem_map.mp hr
  refine ⟨e, ?_, rfl, ?_⟩
  · exact (List.takeWhile_sublist _).subset he
  · intro hb
    simp [mkRecord, hb]

/-- Witness for C9 at an entry with an absent body. -/
theorem claim_C9_absent_body_witness :
    ∃ e, e ∈ [wEntry 1 0] ∧ mkRecord (wEntry 1 0) = mkRecord e ∧
      (e.body = none → (mkRecord (wEntry 1 0)).body = "") :=
  claim_C9_absent_body 0 [wEntry 1 0] (mkRecord (wEntry 1 0)) (by decide)

/-- C6: when the fetcher's result is empty the program prints exactly
`"No recent pull requests found."`, exits with status 0, and leaves the
file store untouched. -/
theorem claim_C6_empty_result (argv : List String) (pulls : List PullRequestRecord)
    (ai : String → String → String → String) (dateStr startDate : String)
    (fs0 : String → Option String) (h : pulls = []) :
    (mainProgram argv pulls ai dateStr startDate fs0).printed =
      ["No recent pull requests found."] ∧
    (mainProgram argv pulls ai dateStr startDate fs0).exitCode = 0 ∧
    (∀ p, (mainProgram argv pulls ai dateStr startDate fs0).files p = fs0 p) := by
  subst h
  refine ⟨rfl, rfl, fun p => rfl⟩

/-- Witness for C6 at a concrete empty run. -/
theorem claim_C6_empty_result_witness :
    (mainProgram ["main.py"] [] (fun _ _ _ => "out") "20261012" "20261005"
        (fun _ => none)).printed = ["No recent pull requests found."] ∧
    (mainProgram ["main.py"] [] (fun _ _ _ => "out") "20261012" "20261005"
        (fun _ => none)).exitCode = 0 ∧
    (∀ p, (mainProgram ["main.py"] [] (fun _ _ _ => "out") "20261012" "20261005"
        (fun _ => none)).files p = (fun _ => none : String → Option String) p) :=
  claim_C6_empty_result ["main.py"] [] (fun _ _ _ => "out") "20261012" "20261005"
    (fun _ => none) rfl

/-- C8: on a non-empty result the program maps the path
`reports/<owner>_<repo>/report-<date>.md` to the header line naming
owner/repo and the two window-bound dates followed by the generated
analysis text — whatever the path held before — and leaves every other
path unchanged; the run exits with status 0. -/
theorem claim_C8_report_file (argv : List String) (pulls : List PullRequestRecord)
    (ai : String → String → String → String) (dateStr startDate : String)
    (fs0 : String → Option String) (owner repo : String)
    (hrepo : chooseRepo argv = (owner, repo)) (hne : pulls ≠ []) :
    (mainProgram argv pulls ai dateStr startDate fs0).files
        ("reports/" ++ owner ++ "_" ++ repo ++ "/report-" ++ dateStr ++ ".md") =
      some ("# AI Analysis of Pull Requests for " ++ owner ++ "/" ++ repo ++
            " during " ++ startDate ++ "-" ++ dateStr ++ "\n\n" ++
            ai (get_pulls_summary_as_string pulls) owner repo ++ "\n") ∧
    (∀ p, p ≠ "reports/" ++ owner ++ "_" ++ repo ++ "/report-" ++ dateStr ++ ".md" →
      (mainProgram argv pulls ai dateStr startDate fs0).files p = fs0 p) ∧
    (mainProgram argv pulls ai dateStr startDate fs0).exitCode = 0 := by
  have h1 : (chooseRepo argv).1 = owner := by rw [hrepo]
  have h2 : (chooseRepo argv).2 = repo := by rw [hrepo]
  simp only [mainProgram, if_neg hne, h1, h2, reportPath, reportHeader]
  refine ⟨by simp, fun p hp => by simp [hp], trivial⟩

/-- Witness for C8 at a concrete run over `acme/widget` with a file already
present at the report path (it is overwritten). -/
theorem claim_C8_report_file_witness :
    (mainProgram ["main.py", "acme", "widget"] [mkRecord (wEntry 1 0)]
        (fun _ _ _ => "analysis") "20261012" "20261005"
        (fun _ => some "old")).files
        ("reports/" ++ "acme" ++ "_" ++ "widget" ++ "/report-" ++ "20261012" ++ ".md") =
      some ("# AI Analysis of Pull Requests for " ++ "acme" ++ "/" ++ "widget" ++
            " during " ++ "20261005" ++ "-" ++ "20261012" ++ "\n\n" ++
            (fun _ _ _ => "analysis") (get_pulls_summary_as_string [mkRecord (wEntry 1 0)])
              "acme" "widget" ++ "\n") ∧
    (∀ p, p ≠ "reports/" ++ "acme" ++ "_" ++ "widget" ++ "/report-" ++ "20261012" ++ ".md" →
      (mainProgram ["main.py", "acme", "widget"] [mkRecord (wEntry 1 0)]
          (fun _ _ _ => "analysis") "20261012" "20261005"
          (fun _ => some "old")).files p = (fun _ => some "old" : String → Option String) p) ∧
    (mainProgram ["main.py", "acme", "widget"] [mkRecord (wEntry 1 0)]
        (fun _ _ _ => "analysis") "20261012" "20261005"
        (fun _ => some "old")).exitCode = 0 :=
  claim_C8_report_file ["main.py", "acme", "widget"] [mkRecord (wEntry 1 0)]
    (fun _ _ _ => "analysis") "20261012" "20261005" (fun _ => some "old")
    "acme" "widget" rfl (by simp)

/-- C10: with fewer than two positional arguments (`sys.argv` shorter than
three entries) the defaults `pytorch/pytorch` are used — a single argument
is ignored exactly as if none were given — and with two or more positional
arguments the first two are used. -/
theorem claim_C10_argv_defaults :
    (∀ prog arg : String, chooseRepo [prog, arg] = ("pytorch", "pytorch")) ∧
    (∀ prog : String, chooseRepo [prog] = ("pytorch", "pytorch")) ∧
    chooseRepo [] = ("pytorch", "pytorch") ∧
    (∀ (prog a b : String) (rest : List String),
      chooseRepo (prog :: a :: b :: rest) = (a, b)) := by
  refine ⟨fun prog arg => ?_, fun prog => ?_, ?_, fun prog a b rest => ?_⟩
  · simp [chooseRepo]
  · simp [chooseRepo]
  · simp [chooseRepo]
  · simp [chooseRepo, List.getD]

theorem natDigitsAux_fuel_eq : ∀ f g n, n < f → n < g → natDigitsAux f n = natDigitsAux g n := by
  intro f
  induction f with
  | zero => intro g n h; omega
  | succ f ihf =>
    intro g n hf hg
    cases g with
    | zero => omega
    | succ g =>
      simp only [natDigitsAux]
      by_cases h10 : n < 10
      · simp [h10]
      · simp only [if_neg h10]
        have hdiv : n / 10 < n := Nat.div_lt_self (by omega) (by omega)
        rw [ihf g (n / 10) (by omega) (by omega)]

theorem natDigits_unfold (n : Nat) :
    natDigits n =
      if n < 10 then [Nat.digitChar n]
      else natDigits (n / 10) ++ [Nat.digitChar (n % 10)] := by
  have hdiv : n < 10 ∨ n / 10 < n := by
    rcases Nat.lt_or_ge n 10 with h | h
    · exact Or.inl h
    · exact Or.inr (Nat.div_lt_self (by omega) (by omega))
  by_cases h : n < 10
  · rw [if_pos h]
    show natDigitsAux (n + 1) n = _
    simp [natDigitsAux, h]
  · rw [if_neg h]
    have hd : n / 10 < n := by omega
    show natDigitsAux (n + 1) n = _
    rw [show natDigitsAux (n + 1) n = natDigitsAux n (n / 10) ++ [Nat.digitChar (n % 10)] from
      by simp [natDigitsAux, h]]
    rw [natDigitsAux_fuel_eq n (n / 10 + 1) (n / 10) (by omega) (by omega)]
    rfl

theorem digitChar_isDigit (d : Nat) (h : d < 10) : (Nat.digitChar d).isDigit = true := by
  interval_cases d <;> decide

theorem digitChar_val (d : Nat) (h : d < 10) : (Nat.digitChar d).toNat - 48 = d := by
  interval_cases d <;> decide

theorem natDigits_all_digits (n : Nat) : ∀ c ∈ natDigits n, c.isDigit = true := by
  induction n using Nat.strong_induction_on with
  | _ n ih =>
    rw [natDigits_unfold]
    by_cases h : n < 10
    · simp only [if_pos h, List.mem_singleton]
      rintro c rfl
      exact digitChar_isDigit n h
    · simp only [if_neg h, List.mem_append, List.mem_singleton]
      rintro c (hc | rfl)
      · exact ih (n / 10) (Nat.div_lt_self (by omega) (by omega)) c hc
      · exact digitChar_isDigit (n % 10) (Nat.mod_lt n (by omega))

theorem natDigits_ne_nil (n : Nat) : natDigits n ≠ [] := by
  rw [natDigits_unfold]
  by_cases h : n < 10
  · simp [h]
  · simp [h]

theorem natDigits_no_nl (n : Nat) : '\n' ∉ natDigits n := by
  intro h
  have := natDigits_all_digits n '\n' h
  exact absurd this (by decide)

theorem digitsVal_append_digit (l : List Char) (c : Char) :
    digitsVal (l ++ [c]) = digitsVal l * 10 + (c.toNat - 48) := by
  simp [digitsVal, List.foldl_append]

theorem digitsVal_natDigits (n : Nat) : digitsVal (natDigits n) = n := by
  induction n using Nat.strong_induction_on with
  | _ n ih =>
    rw [natDigits_unfold]
    by_cases h : n < 10
    · simp only [if_pos h]
      show digitsVal [Nat.digitChar n] = n
      simp [digitsVal, digitChar_val n h]
    · rw [if_neg h, digitsVal_append_digit,
        ih (n / 10) (Nat.div_lt_self (by omega) (by omega)),
        digitChar_val (n % 10) (Nat.mod_lt n (by omega))]
      omega

theorem natRepr_data (n : Nat) : (natRepr n).data = natDigits n := rfl

theorem data_append (a b : String) : (a ++ b).data = a.data ++ b.data := rfl

theorem intRepr_no_nl (x : Int) : '\n' ∉ (intRepr x).data := by
  unfold intRepr
  by_cases h : x < 0
  · rw [if_pos h]
    intro hm
    rcases List.mem_cons.mp hm with h' | h'
    · exact absurd h' (by decide)
    · exact natDigits_no_nl _ h'
  · rw [if_neg h]
    exact natDigits_no_nl _

theorem no_nl_append {a b : List Char} (ha : '\n' ∉ a) (hb : '\n' ∉ b) :
    '\n' ∉ a ++ b := by
  simp only [List.mem_append, not_or]
  exact ⟨ha, hb⟩

theorem takeDigits_append (ds : List Char) (hd : ∀ c ∈ ds, c.isDigit = true)
    (y : Char) (hy : y.isDigit = false) (rest : List Char) :
    takeDigits (ds ++ y :: rest) = (ds, y :: rest) := by
  induction ds with
  | nil => simp [takeDigits, hy]
  | cons c cs ih =>
    have hc : c.isDigit = true := hd c (List.mem_cons_self ..)
    simp only [List.cons_append, takeDigits, hc, if_pos, List.append_eq]
    rw [ih fun c' hc' => hd c' (List.mem_cons_of_mem _ hc')]

theorem stripHead_pre : ∀ (pre rest : List Char), stripHead pre (pre ++ rest) = some rest := by
  intro pre
  induction pre with
  | nil => intro rest; rfl
  | cons p ps ih => intro rest; simp [stripHead, ih]

theorem parseIdx_ok (i n : Nat) (t : String) :
    parseIdx (natDigits i ++ (idxMark ++ (natDigits n ++ (colonMark ++ t.data)))) =
      some (i, n, t) := by
  have e1 : idxMark ++ (natDigits n ++ (colonMark ++ t.data)) =
      '.' :: (" PR #".data ++ (natDigits n ++ (colonMark ++ t.data))) := rfl
  have e2 : ('.' : Char) :: (" PR #".data ++ (natDigits n ++ (colonMark ++ t.data))) =
      idxMark ++ (natDigits n ++ (colonMark ++ t.data)) := rfl
  have e3 : colonMark ++ t.data = ':' :: (' ' :: t.data) := rfl
  have e4 : (':' : Char) :: (' ' :: t.data) = colonMark ++ t.data := rfl
  rw [e1]
  simp only [parseIdx]
  rw [takeDigits_append (natDigits i) (natDigits_all_digits i) '.' (by decide)]
  rw [if_neg (natDigits_ne_nil i)]
  rw [e2, stripHead_pre]
  simp only [Option.some_bind]
  rw [e3, takeDigits_append (natDigits n) (natDigits_all_digits n) ':' (by decide)]
  rw [if_neg (natDigits_ne_nil n)]
  rw [e4, stripHead_pre]
  simp [digitsVal_natDigits]

theorem parseAuthor_ok (u : String) :
    parseAuthor ("   Author: ".data ++ u.data) = some u := by
  simp only [parseAuthor]
  rw [stripHead_pre]
  rfl

theorem parseDesc_ok (b : String) :
    parseDesc ("   Description: ".data ++ (b.data ++ "...".data)) = some b := by
  simp only [parseDesc]
  rw [stripHead_pre]
  simp only [Option.map_some']
  congr 1
  have hlen : (b.data ++ "...".data).length - 3 = b.data.length := by
    simp
  rw [hlen]
  rw [List.take_left]

theorem parseIdx_nil : parseIdx [] = none := rfl

theorem parseIdx_nondigit (c : Char) (hc : c.isDigit = false) (cs : List Char) :
    parseIdx (c :: cs) = none := by
  simp [parseIdx, takeDigits, hc]

theorem splitOnNl_ne_nil (cs : List Char) : splitOnNl cs ≠ [] := by
  induction cs with
  | nil => simp [splitOnNl]
  | cons c cs ih =>
    simp only [splitOnNl]
    by_cases h : c = '\n'
    · simp [h]
    · simp only [if_neg h]
      cases hs : splitOnNl cs with
      | nil => simp
      | cons l ls => simp

theorem splitOnNl_append_nl (l : List Char) (hl : '\n' ∉ l) (rest : List Char) :
    splitOnNl (l ++ '\n' :: rest) = l :: splitOnNl rest := by
  induction l with
  | nil => simp [splitOnNl]
  | cons c cs ih =>
    have hc : ¬(c = '\n') := fun h => hl (by rw [h]; exact List.mem_cons_self ..)
    have hcs : '\n' ∉ cs := fun h => hl (List.mem_cons_of_mem _ h)
    simp only [List.cons_append, splitOnNl, if_neg hc, List.append_eq]
    rw [ih hcs]

theorem joinLines_cons_ne (x : String) (ys : List String) (h : ys ≠ []) :
    joinLines (x :: ys) = x ++ "\n" ++ joinLines ys := by
  cases ys with
  | nil => exact absurd rfl h
  | cons y ys => rfl

theorem scanLines_skip (l : List Char) (h : parseIdx l = none) (rest : List (List Char)) :
    scanLines (l :: rest) = scanLines rest := by
  match rest with
  | [] => rfl
  | [a] => rfl
  | [a, b] => rfl
  | [a, b, c] => rfl
  | a :: b :: c :: d :: r => simp only [scanLines, h]

theorem scanLines_entry (l1 l2 l3 l4 l5 : List Char) (rest : List (List Char))
    (i n : Nat) (t u b : String)
    (h1 : parseIdx l1 = some (i, n, t)) (h2 : parseAuthor l2 = some u)
    (h5 : parseDesc l5 = some b) :
    scanLines (l1 :: l2 :: l3 :: l4 :: l5 :: rest) = (i, n, t, u, b) :: scanLines rest := by
  simp only [scanLines, h1, h2, h5]

theorem idxLine_data (i : Nat) (p : PullRequestRecord) :
    (idxLine i p).data =
      natDigits i ++ (idxMark ++ (natDigits p.number ++ (colonMark ++ p.title.data))) := by
  simp [idxLine, data_append, natRepr_data, idxMark, colonMark, List.append_assoc]

theorem authorLine_data (p : PullRequestRecord) :
    (authorLine p).data = "   Author: ".data ++ p.user.data := rfl

theorem descLine_data (p : PullRequestRecord) :
    (descLine p).data = "   Description: ".data ++ (p.body.data ++ "...".data) := by
  simp [descLine, data_append, List.append_assoc]

theorem parseIdx_idxLine (i : Nat) (p : PullRequestRecord) :
    parseIdx ((idxLine i p).data) = some (i, p.number, p.title) := by
  rw [idxLine_data]
  exact parseIdx_ok i p.number p.title

theorem parseAuthor_authorLine (p : PullRequestRecord) :
    parseAuthor ((authorLine p).data) = some p.user := by
  rw [authorLine_data]
  exact parseAuthor_ok p.user

theorem parseDesc_descLine (p : PullRequestRecord) :
    parseDesc ((descLine p).data) = some p.body := by
  rw [descLine_data]
  exact parseDesc_ok p.body

theorem parseIdx_authorLine (p : PullRequestRecord) :
    parseIdx ((authorLine p).data) = none := by
  rw [show (authorLine p).data = ' ' :: ("  Author: ".data ++ p.user.data) from rfl]
  exact parseIdx_nondigit ' ' (by decide) _

theorem parseIdx_createdLine (p : PullRequestRecord) :
    parseIdx ((createdLine p).data) = none := by
  rw [show (createdLine p).data = ' ' :: ("  Created at: ".data ++ (intRepr p.created_at).data) from rfl]
  exact parseIdx_nondigit ' ' (by decide) _

theorem parseIdx_labelsLine (p : PullRequestRecord) :
    parseIdx ((labelsLine p).data) = none := by
  rw [show (labelsLine p).data =
        ' ' :: ("  Labels: ".data ++
          (if p.labels = [] then "None" else joinComma p.labels).data) from rfl]
  exact parseIdx_nondigit ' ' (by decide) _

theorem parseIdx_descLine (p : PullRequestRecord) :
    parseIdx ((descLine p).data) = none := by
  rw [show (descLine p).data =
        ' ' :: ("  Description: ".data ++ (p.body ++ "...").data) from rfl]
  exact parseIdx_nondigit ' ' (by decide) _

theorem idxLine_clean (i : Nat) (p : PullRequestRecord) (ht : cleanStr p.title) :
    '\n' ∉ (idxLine i p).data := by
  rw [idxLine_data]
  refine no_nl_append (natDigits_no_nl i) (no_nl_append (by decide)
    (no_nl_append (natDigits_no_nl p.number) (no_nl_append (by decide) ht)))

theorem authorLine_clean (p : PullRequestRecord) (hu : cleanStr p.user) :
    '\n' ∉ (authorLine p).data := by
  rw [authorLine_data]
  exact no_nl_append (by decide) hu

theorem createdLine_clean (p : PullRequestRecord) :
    '\n' ∉ (createdLine p).data := by
  rw [show (createdLine p).data = "   Created at: ".data ++ (intRepr p.created_at).data from rfl]
  exact no_nl_append (by decide) (intRepr_no_nl p.created_at)

theorem joinComma_clean (ls : List String) (h : ∀ l ∈ ls, cleanStr l) :
    '\n' ∉ (joinComma ls).data := by
  induction ls with
  | nil => simp [joinComma]
  | cons l ls ih =>
    cases ls with
    | nil => exact h l (List.mem_cons_self ..)
    | cons l2 ls2 =>
      rw [show (joinComma (l :: l2 :: ls2)).data =
            l.data ++ (", ".data ++ (joinComma (l2 :: ls2)).data) from
        by simp [joinComma, data_append, List.append_assoc]]
      refine no_nl_append (h l (List.mem_cons_self ..)) (no_nl_append (by decide) ?_)
      exact ih fun l' hl' => h l' (List.mem_cons_of_mem _ hl')

theorem labelsLine_clean (p : PullRequestRecord) (hl : ∀ l ∈ p.labels, cleanStr l) :
    '\n' ∉ (labelsLine p).data := by
  rw [show (labelsLine p).data =
        "   Labels: ".data ++ (if p.labels = [] then "None" else joinComma p.labels).data from rfl]
  refine no_nl_append (by decide) ?_
  by_cases h : p.labels = []
  · rw [if_pos h]
    decide
  · rw [if_neg h]
    exact joinComma_clean p.labels hl

theorem descLine_clean (p : PullRequestRecord) (hb : cleanStr p.body) :
    '\n' ∉ (descLine p).data := by
  rw [descLine_data]
  exact no_nl_append (by decide) (no_nl_append hb (by decide))

theorem nl_data : "\n".data = ['\n'] := rfl

theorem nl2_data : "\n\n".data = ['\n', '\n'] := rfl

theorem bodyLines_join_single (i : Nat) (p : PullRequestRecord) :
    (joinLines (bodyLines i [p])).data =
      (idxLine i p).data ++ '\n' :: ((authorLine p).data ++ '\n' :: ((createdLine p).data ++ '\n' ::
        ((labelsLine p).data ++ '\n' :: ((descLine p).data ++ ['\n', '\n', '\n'])))) := by
  simp [bodyLines, entryLines, joinLines, data_append, nl_data, nl2_data, List.append_assoc]

theorem bodyLines_join_cons (i : Nat) (p q : PullRequestRecord) (qs : List PullRequestRecord) :
    (joinLines (bodyLines i (p :: q :: qs))).data =
      (idxLine i p).data ++ '\n' :: ((authorLine p).data ++ '\n' :: ((createdLine p).data ++ '\n' ::
        ((labelsLine p).data ++ '\n' :: ((descLine p).data ++ '\n' :: '\n' :: '\n' :: '\n' ::
          (joinLines (bodyLines (i + 1) (q :: qs))).data)))) := by
  rw [show bodyLines i (p :: q :: qs) = entryLines i p ++ bodyLines (i + 1) (q :: qs) from rfl]
  rw [show bodyLines (i + 1) (q :: qs) = entryLines (i + 1) q ++ bodyLines (i + 2) qs from rfl]
  simp [entryLines, joinLines, data_append, nl_data, nl2_data, List.append_assoc]

theorem scan_bodyLines : ∀ (ps : List PullRequestRecord) (i : Nat),
    (∀ p ∈ ps, cleanRecord p) →
    scanLines (splitOnNl ((joinLines (bodyLines i ps)).data)) = expectedScan i ps := by
  intro ps
  induction ps with
  | nil => intro i _; rfl
  | cons p ps ih =>
    intro i hc
    obtain ⟨ht, hu, hb, hlab⟩ := hc p (List.mem_cons_self ..)
    have h1 := idxLine_clean i p ht
    have h2 := authorLine_clean p hu
    have h3 := createdLine_clean p
    have h4 := labelsLine_clean p hlab
    have h5 := descLine_clean p hb
    cases ps with
    | nil =>
      rw [bodyLines_join_single i p]
      rw [splitOnNl_append_nl _ h1, splitOnNl_append_nl _ h2, splitOnNl_append_nl _ h3,
        splitOnNl_append_nl _ h4]
      rw [show ((descLine p).data ++ ['\n', '\n', '\n'] : List Char) =
            (descLine p).data ++ '\n' :: ['\n', '\n'] from rfl]
      rw [splitOnNl_append_nl _ h5]
      rw [show splitOnNl ['\n', '\n'] = [[], [], []] from rfl]
      rw [scanLines_entry _ _ _ _ _ _ i p.number p.title p.user p.body
        (parseIdx_idxLine i p) (parseAuthor_authorLine p) (parseDesc_descLine p)]
      rfl
    | cons q qs =>
      rw [bodyLines_join_cons i p q qs]
      rw [splitOnNl_append_nl _ h1, splitOnNl_append_nl _ h2, splitOnNl_append_nl _ h3,
        splitOnNl_append_nl _ h4]
      rw [show ((descLine p).data ++ '\n' :: '\n' :: '\n' :: '\n' ::
            (joinLines (bodyLines (i + 1) (q :: qs))).data : List Char) =
            (descLine p).data ++ '\n' :: ('\n' :: '\n' :: '\n' ::
              (joinLines (bodyLines (i + 1) (q :: qs))).data) from rfl]
      rw [splitOnNl_append_nl _ h5]
      rw [show splitOnNl ('\n' :: '\n' :: '\n' :: (joinLines (bodyLines (i + 1) (q :: qs))).data) =
            [] :: [] :: [] :: splitOnNl ((joinLines (bodyLines (i + 1) (q :: qs))).data) from
        by simp [splitOnNl]]
      rw [scanLines_entry _ _ _ _ _ _ i p.number p.title p.user p.body
        (parseIdx_idxLine i p) (parseAuthor_authorLine p) (parseDesc_descLine p)]
      rw [scanLines_skip _ parseIdx_nil, scanLines_skip _ parseIdx_nil,
        scanLines_skip _ parseIdx_nil]
      rw [ih (i + 1) fun r hr => hc r (List.mem_cons_of_mem _ hr)]
      rfl

theorem headerLine_data (pulls : List PullRequestRecord) :
    (headerLine pulls).data =
      '\n' :: ("There are ".data ++ (natDigits pulls.length ++ " pull requests recently:".data)) := by
  rw [show (headerLine pulls).data =
        "\nThere are ".data ++ ((natRepr pulls.length).data ++ " pull requests recently:".data) from
    by simp [headerLine, data_append, List.append_assoc]]
  rw [natRepr_data]
  rfl

theorem headerTail_clean (n : Nat) :
    '\n' ∉ ("There are ".data ++ (natDigits n ++ " pull requests recently:".data)) :=
  no_nl_append (by decide) (no_nl_append (natDigits_no_nl n) (by decide))

theorem parseIdx_headerTail (n : Nat) :
    parseIdx ("There are ".data ++ (natDigits n ++ " pull requests recently:".data)) = none := by
  rw [show ("There are ".data ++ (natDigits n ++ " pull requests recently:".data) : List Char) =
        'T' :: ("here are ".data ++ (natDigits n ++ " pull requests recently:".data)) from rfl]
  exact parseIdx_nondigit 'T' (by decide) _

theorem splitOnNl_cons_nl (cs : List Char) : splitOnNl ('\n' :: cs) = [] :: splitOnNl cs := by
  simp [splitOnNl]

theorem digest_data_cons (p : PullRequestRecord) (ps : List PullRequestRecord) :
    (get_pulls_summary_as_string (p :: ps)).data =
      '\n' :: (("There are ".data ++
          (natDigits (p :: ps).length ++ " pull requests recently:".data)) ++
        '\n' :: (joinLines (bodyLines 1 (p :: ps))).data) := by
  unfold get_pulls_summary_as_string summary_lines
  rw [joinLines_cons_ne _ _ (by simp [bodyLines, entryLines])]
  rw [data_append, data_append, headerLine_data]
  simp [List.append_assoc, nl_data]

/-- C7 counterexample: two record sequences that differ in the PR number,
title and author of their second record render to the exact same digest
text, so re-scanning the digest cannot recover PR numbers, titles or
author names for every record sequence: multi-line bodies can forge entry
blocks. -/
theorem claim_C7_counterexample :
    get_pulls_summary_as_string [cexA1, cexA2] =
      get_pulls_summary_as_string [cexB1, cexB2] ∧
    [cexA1, cexA2].map PullRequestRecord.number ≠
      [cexB1, cexB2].map PullRequestRecord.number ∧
    [cexA1, cexA2].map PullRequestRecord.title ≠
      [cexB1, cexB2].map PullRequestRecord.title ∧
    [cexA1, cexA2].map PullRequestRecord.user ≠
      [cexB1, cexB2].map PullRequestRecord.user := by
  refine ⟨rfl, by decide, by decide, by decide⟩

/-- C7 (amended: restricted to records whose printed text fields contain no
newline): the digest carries one numbered entry per record, numbered
consecutively from 1 in the order received, and re-scanning it recovers
each record's PR number, title and author name verbatim, and its body by
removing the documented three-dot suffix. -/
theorem claim_C7_digest_roundtrip (pulls : List PullRequestRecord)
    (hc : ∀ p ∈ pulls, cleanRecord p) :
    scanDigest (get_pulls_summary_as_string pulls) = expectedScan 1 pulls := by
  cases pulls with
  | nil => rfl
  | cons p ps =>
    unfold scanDigest
    rw [digest_data_cons p ps]
    rw [splitOnNl_cons_nl]
    rw [splitOnNl_append_nl _ (headerTail_clean _)]
    rw [scanLines_skip _ parseIdx_nil, scanLines_skip _ (parseIdx_headerTail _)]
    exact scan_bodyLines (p :: ps) 1 hc

/-- Witness for the amended C7 at a concrete newline-free sequence. -/
theorem claim_C7_digest_roundtrip_witness :
    scanDigest (get_pulls_summary_as_string [mkRecord (wEntry 1 0), mkRecord (wEntry 2 3)]) =
      expectedScan 1 [mkRecord (wEntry 1 0), mkRecord (wEntry 2 3)] :=
  claim_C7_digest_roundtrip [mkRecord (wEntry 1 0), mkRecord (wEntry 2 3)] (by decide)

